import Mathlib

/-!
Shallow embedding of the chatbot backend in `src/app.py`.

Strings are modelled as `List Char`.  Python `str.strip` / `str.lower`
are modelled on the ASCII whitespace and letter range, which covers every
string the program manipulates.  `textwrap.dedent` is modelled line by
line, following the CPython implementation: whitespace-only lines are
blanked, the longest common leading run of spaces and tabs of the
remaining lines is computed, and that margin is removed from the start of
every line that carries it.
-/

namespace AppModel

/-- Characters that `textwrap.dedent` treats as indentation (space and tab). -/
def isIndentChar (c : Char) : Bool := c = ' ' || c = '\t'

/-- ASCII whitespace as stripped by Python `str.strip()`. -/
def isPySpace (c : Char) : Bool :=
  c = ' ' || c = '\t' || c = '\n' || c = '\r' || c = '\x0B' || c = '\x0C'

/-- Python `str.strip()`: drop leading and trailing whitespace. -/
def pyStrip (l : List Char) : List Char :=
  ((l.dropWhile isPySpace).reverse.dropWhile isPySpace).reverse

/-- Python `str.lower()` (ASCII range, which is all the program compares). -/
def pyLower (l : List Char) : List Char := l.map Char.toLower

/-- Split a text into its lines at every newline character.
The number of lines is one more than the number of newlines, exactly like
the line splitting underlying the regexes in `textwrap.dedent`. -/
def splitLines : List Char → List (List Char)
  | [] => [[]]
  | c :: rest =>
    if c = '\n' then
      [] :: splitLines rest
    else
      match splitLines rest with
      | [] => [[c]]
      | h :: t => (c :: h) :: t

/-- Join lines back with newline separators (inverse of `splitLines`). -/
def unlines : List (List Char) → List Char
  | [] => []
  | [l] => l
  | l :: ls => l ++ '\n' :: unlines ls

/-- A line consisting solely of whitespace, per the regex in
`textwrap.dedent` (one or more spaces or tabs). -/
def wsOnly (l : List Char) : Bool := !l.isEmpty && l.all isIndentChar

/-- Normalisation pass of `textwrap.dedent`: whitespace-only lines are
replaced by empty lines. -/
def normLine (l : List Char) : List Char := if wsOnly l then [] else l

/-- Leading indentation of a line. -/
def indentOf (l : List Char) : List Char := l.takeWhile isIndentChar

/-- Longest common prefix of two character lists. -/
def lcp : List Char → List Char → List Char
  | a :: as, b :: bs => if a = b then a :: lcp as bs else []
  | _, _ => []

/-- Margin computed by `textwrap.dedent`: the longest common prefix of the
indentations of all lines that contain non-whitespace content. -/
def margin : List (List Char) → List Char
  | [] => []
  | w :: ws => ws.foldl lcp w

/-- Indentations of the content lines (after normalisation the content
lines are exactly the nonempty lines). -/
def lineIndents (ls : List (List Char)) : List (List Char) :=
  (ls.filter (fun l => !l.isEmpty)).map indentOf

/-- Removal of the margin from the start of a line, mirroring the final
substitution in `textwrap.dedent`: only lines that start with the margin
are changed, and an empty margin changes nothing. -/
def stripMargin (m l : List Char) : List Char :=
  if m = [] then l
  else if m <+: l then l.drop m.length
  else l

/-- Model of `textwrap.dedent` from CPython, specialised to character
lists: blank the whitespace-only lines, compute the common margin of the
content lines, and strip it from every line. -/
def dedent (text : List Char) : List Char :=
  let ls := (splitLines text).map normLine
  let m := margin (lineIndents ls)
  unlines (ls.map (stripMargin m))

/-- Instruction text of the Study Buddy persona (app.py line 23). -/
def STUDY_BUDDY_INSTRUCTION : List Char :=
  "You are a professional and concise academic tutor. Your tone should be educational, encouraging, and focused on structured learning. Prioritize explaining concepts clearly and giving practical study tips.".data

/-- Instruction text of the Wellness Coach persona (app.py line 24). -/
def WELLNESS_COACH_INSTRUCTION : List Char :=
  "You are an empathetic, gentle, and motivational life coach. Your tone should be supportive, focusing on mental health, goal setting, and positive reinforcement. Use an uplifting and warm style.".data

/-- Instruction text of the Career Advisor persona (app.py line 25). -/
def CAREER_ADVISOR_INSTRUCTION : List Char :=
  "You are a pragmatic, formal, and insightful career counselor. Your tone should be professional, advisory, and provide actionable, strategic advice for career development and planning.".data

/-- Persona-to-instruction dictionary (app.py lines 22-26). -/
def PERSONALITY_INSTRUCTIONS : List (List Char × List Char) :=
  [("Study Buddy".data, STUDY_BUDDY_INSTRUCTION),
   ("Wellness Coach".data, WELLNESS_COACH_INSTRUCTION),
   ("Career Advisor".data, CAREER_ADVISOR_INSTRUCTION)]

/-- Lookup with fallback, mirroring
`PERSONALITY_INSTRUCTIONS.get(personality, PERSONALITY_INSTRUCTIONS[...])`
with the Study Buddy entry as the default. -/
def instructionFor (personality : List Char) : List Char :=
  (PERSONALITY_INSTRUCTIONS.lookup personality).getD STUDY_BUDDY_INSTRUCTION

/-- Fixed identity line of the prompt template. -/
def promptCoreLine : List Char :=
  "    Your core identity is a friendly, concise, and professional AI assistant.".data

/-- Language directive line of the prompt template, with the language
substituted in the middle of the line. -/
def promptLangLine (language : List Char) : List Char :=
  "    You must always reply in **".data ++ language ++ " language only**.".data

/-- Remainder of the prompt template after the blank line that follows the
language directive: rules, a second language substitution, the worked
example, and the trailing whitespace-only line before the closing quotes.
The source writes this as one literal with embedded newlines; it is spelled
here line by line with explicit newline separators, which concatenates to
exactly the same character sequence. -/
def promptTail (language : List Char) : List Char :=
  "    --- CORE RULES ---".data ++
  ('\n' :: (("    1. Use natural and fluent ".data ++ language ++ ".".data) ++
  ('\n' :: ("    2. Keep responses short and to the point, suitable for a mobile chat.".data ++
  ('\n' :: ("    3. Do not mix other languages.".data ++
  ('\n' :: ("    4. When giving choices, include them in this exact format:".data ++
  ('\n' :: ("       <<OPTION:Option 1>>".data ++
  ('\n' :: ("       <<OPTION:Option 2>>".data ++
  ('\n' :: ("       ...".data ++
  ('\n' :: ("    5. The user\x27s prompt will contain the current personality mode. Ignore it in your visible response but follow its instructions.".data ++
  ('\n' :: ('\n' :: ("    Example:".data ++
  ('\n' :: ("    User: Tell me about health check-ups (Current Personality: Wellness Coach. Respond in English)".data ++
  ('\n' :: ("    Assistant:".data ++
  ('\n' :: ("    That\x27s a great step towards self-care! Health check-ups are key to staying on track.".data ++
  ('\n' :: ("    <<OPTION:General Importance>>".data ++
  ('\n' :: ("    <<OPTION:Finding the Right Doctor>>".data ++
  ('\n' :: ("    <<OPTION:Staying Motivated>>".data ++
  ('\n' :: "    ".data))))))))))))))))))))))))))))))))

/-- The f-string inside `build_system_prompt` (app.py lines 31-54), before
`textwrap.dedent` is applied: a leading newline, the instruction line, the
identity line, the language directive, and the tail, joined exactly as in
the source literal. -/
def promptTemplate (instruction language : List Char) : List Char :=
  '\n' :: (("    ".data ++ instruction) ++
    ('\n' :: ('\n' :: (promptCoreLine ++
      ('\n' :: (promptLangLine language ++
        ('\n' :: ('\n' :: promptTail language))))))))

/-- Model of `build_system_prompt(language, personality)` (app.py lines
29-54): look up the persona instruction with a Study Buddy fallback,
substitute it and the language into the template, and dedent. -/
def build_system_prompt (language personality : List Char) : List Char :=
  dedent (promptTemplate (instructionFor personality) language)

/-- One transcript turn, modelling `types.Content(role=..., parts=[types.Part(text=...)])`;
the program only ever builds single-part contents, so the part list is
modelled by its text. -/
structure Content where
  role : List Char
  text : List Char
deriving DecidableEq

/-- Model of `reset_conversation(language, personality)` (app.py lines
75-82): the transcript becomes a single model-authored welcome turn that
embeds the persona name; the language argument is unused by the source. -/
def reset_conversation (language personality : List Char) : List Content :=
  [⟨"model".data,
    "Hello! I’m your Personal AI Assistant, currently set as a **".data ++
    personality ++ "**. How can I help you today?".data⟩]

/-- Shape of a model-API response as the source consumes it:
`response.candidates` is read at index 0 (each element modelled by its
`.content`), and `response.text` may be missing, in which case the
`.strip()` call raises. -/
structure GeminiResponse where
  candidates : List Content
  text : Option (List Char)
deriving DecidableEq

/-- Outcome of the outbound `generate_content` call: the call itself may
raise (network or API error), or return a response object. -/
inductive ApiOutcome where
  | failure : ApiOutcome
  | success : GeminiResponse → ApiOutcome
deriving DecidableEq

/-- Request the source passes to `client.models.generate_content`
(app.py lines 103-107): model name, ordered contents, and the fixed
sampling temperature. -/
structure SentRequest where
  model : List Char
  contents : List Content
  temperature : ℚ
deriving DecidableEq

/-- Observable result of one `get_gemini_response` call: the returned
string, the transcript after the call (the list is mutated in place by the
source), and the request sent to the API, if any was sent. -/
structure GeminiResult where
  reply : List Char
  history : List Content
  sent : Option SentRequest
deriving DecidableEq

/-- Fixed error string for an unconfigured client (app.py line 89). -/
def CLIENT_ERROR_TEXT : List Char :=
  "🤖 Error: Gemini client not initialized. Check server logs.".data

/-- Fixed error string for a failed model call (app.py line 116). -/
def CONTACT_ERROR_TEXT : List Char :=
  "🤖 Error: Could not contact Gemini model.".data

/-- Model of `get_gemini_response(history, user_input, language, personality)`
(app.py lines 86-116).  The source appends the user turn to `history`
before evaluating `response.candidates[0].content`; an empty candidate
list therefore raises after that first append, and a missing
`response.text` raises after both appends.  Every exception inside the
`try` block is caught and turned into the fixed contact-error string. -/
def get_gemini_response (clientConfigured : Bool) (api : ApiOutcome)
    (history : List Content) (user_input language personality : List Char) :
    GeminiResult :=
  if clientConfigured = false then
    ⟨CLIENT_ERROR_TEXT, history, none⟩
  else
    let system_prompt := build_system_prompt language personality
    let contents : List Content :=
      ⟨"user".data, system_prompt⟩ :: history ++ [⟨"user".data, user_input⟩]
    let sent := some (⟨"gemini-2.5-flash".data, contents, (0.5 : ℚ)⟩ : SentRequest)
    match api with
    | ApiOutcome.failure => ⟨CONTACT_ERROR_TEXT, history, sent⟩
    | ApiOutcome.success resp =>
      match resp.candidates with
      | [] =>
        ⟨CONTACT_ERROR_TEXT, history ++ [⟨"user".data, user_input⟩], sent⟩
      | cand :: _ =>
        match resp.text with
        | none =>
          ⟨CONTACT_ERROR_TEXT, history ++ [⟨"user".data, user_input⟩, cand], sent⟩
        | some t =>
          ⟨pyStrip t, history ++ [⟨"user".data, user_input⟩, cand], sent⟩

/-- Process-wide session state: the two stored selectors and the shared
transcript (app.py lines 17-18 and 71). -/
structure ServerState where
  user_language : List Char
  user_personality : List Char
  conversation_history : List Content
deriving DecidableEq

/-- State after the startup reset (app.py lines 17-18, 120). -/
def initialState : ServerState :=
  ⟨"English".data, "Study Buddy".data,
   reset_conversation "English".data "Study Buddy".data⟩

/-- Parsed JSON body of a chat request: `user_input` defaults to the empty
string when absent, and absent selectors default to the stored values
inside the handler. -/
structure ChatRequest where
  user_input : List Char
  language : Option (List Char)
  personality : Option (List Char)
deriving DecidableEq

/-- JSON object returned by the chat endpoint; fields that a branch does
not emit are `none`. -/
structure ChatJson where
  response : List Char
  language : Option (List Char)
  personality : Option (List Char)
  silent : Option Bool
deriving DecidableEq

/-- Keyword list of the reset command (app.py line 161). -/
def RESET_KEYWORDS : List (List Char) :=
  ["reset".data, "cancel".data, "stop".data, "start over".data,
   "auto_reset_scroll".data]

/-- Fixed state-change greeting (app.py line 146). -/
def state_change_message (language personality : List Char) : List Char :=
  "Hello! I\x27ve set my language to **".data ++ language ++
  "** and I\x27m now your **".data ++ personality ++ "**.".data

/-- Fixed reset confirmation string (app.py line 168). -/
def reset_confirm_message (personality language : List Char) : List Char :=
  "🔄 Conversation reset. I\x27m now your **".data ++ personality ++
  "** in **".data ++ language ++ "**.".data

/-- Model of the `/chatbot` handler `get_chat_response` (app.py lines
124-172): strip and lower the input, default the selectors, then dispatch
in source order on selector change, reset keyword, and normal chat. -/
def get_chat_response (st : ServerState) (clientConfigured : Bool)
    (api : ApiOutcome) (req : ChatRequest) : ServerState × ChatJson :=
  let user_input := pyStrip req.user_input
  let selected_language := req.language.getD st.user_language
  let selected_personality := req.personality.getD st.user_personality
  let user_input_lower := pyLower user_input
  if selected_language ≠ st.user_language ∨
     selected_personality ≠ st.user_personality then
    (⟨selected_language, selected_personality,
      reset_conversation selected_language selected_personality⟩,
     ⟨state_change_message selected_language selected_personality,
      some selected_language, some selected_personality, none⟩)
  else if ∃ k ∈ RESET_KEYWORDS, k <:+: user_input_lower then
    let history := reset_conversation st.user_language st.user_personality
    if user_input_lower = "auto_reset_scroll".data then
      (⟨st.user_language, st.user_personality, history⟩,
       ⟨"...".data, none, none, some true⟩)
    else
      (⟨st.user_language, st.user_personality, history⟩,
       ⟨reset_confirm_message st.user_personality st.user_language,
        some st.user_language, none, none⟩)
  else
    let r := get_gemini_response clientConfigured api st.conversation_history
      user_input st.user_language st.user_personality
    (⟨st.user_language, st.user_personality, r.history⟩,
     ⟨r.reply, some st.user_language, some st.user_personality, none⟩)

/-- Invariant of claim C9: the transcript is nonempty and its first turn
is model-authored. -/
def head_role_model (h : List Content) : Prop :=
  ∃ w rest, h = w :: rest ∧ w.role = "model".data

/-- Lines of the raw prompt template for the counterexample language of
claim C8 (the language A-newline-space-space-B with the Study Buddy
persona), before dedenting. -/
def C8_RAW_LINES : List (List Char) :=
  [[],
   "    ".data ++ STUDY_BUDDY_INSTRUCTION,
   [],
   promptCoreLine,
   "    You must always reply in **A".data,
   "  B language only**.".data,
   [],
   "    --- CORE RULES ---".data,
   "    1. Use natural and fluent A".data,
   "  B.".data,
   "    2. Keep responses short and to the point, suitable for a mobile chat.".data,
   "    3. Do not mix other languages.".data,
   "    4. When giving choices, include them in this exact format:".data,
   "       <<OPTION:Option 1>>".data,
   "       <<OPTION:Option 2>>".data,
   "       ...".data,
   "    5. The user\x27s prompt will contain the current personality mode. Ignore it in your visible response but follow its instructions.".data,
   [],
   "    Example:".data,
   "    User: Tell me about health check-ups (Current Personality: Wellness Coach. Respond in English)".data,
   "    Assistant:".data,
   "    That\x27s a great step towards self-care! Health check-ups are key to staying on track.".data,
   "    <<OPTION:General Importance>>".data,
   "    <<OPTION:Finding the Right Doctor>>".data,
   "    <<OPTION:Staying Motivated>>".data,
   "    ".data]

/-- The same lines after the whitespace-only normalisation pass. -/
def C8_NORM_LINES : List (List Char) :=
  [[],
   "    ".data ++ STUDY_BUDDY_INSTRUCTION,
   [],
   promptCoreLine,
   "    You must always reply in **A".data,
   "  B language only**.".data,
   [],
   "    --- CORE RULES ---".data,
   "    1. Use natural and fluent A".data,
   "  B.".data,
   "    2. Keep responses short and to the point, suitable for a mobile chat.".data,
   "    3. Do not mix other languages.".data,
   "    4. When giving choices, include them in this exact format:".data,
   "       <<OPTION:Option 1>>".data,
   "       <<OPTION:Option 2>>".data,
   "       ...".data,
   "    5. The user\x27s prompt will contain the current personality mode. Ignore it in your visible response but follow its instructions.".data,
   [],
   "    Example:".data,
   "    User: Tell me about health check-ups (Current Personality: Wellness Coach. Respond in English)".data,
   "    Assistant:".data,
   "    That\x27s a great step towards self-care! Health check-ups are key to staying on track.".data,
   "    <<OPTION:General Importance>>".data,
   "    <<OPTION:Finding the Right Doctor>>".data,
   "    <<OPTION:Staying Motivated>>".data,
   []]

/-- The dedented lines of the C8 counterexample: the computed margin is
two spaces, so every line loses two leading spaces, in particular the
continuation lines that started at column two now start at column zero. -/
def C8_FINAL_LINES : List (List Char) :=
  [[],
   "  ".data ++ STUDY_BUDDY_INSTRUCTION,
   [],
   "  Your core identity is a friendly, concise, and professional AI assistant.".data,
   "  You must always reply in **A".data,
   "B language only**.".data,
   [],
   "  --- CORE RULES ---".data,
   "  1. Use natural and fluent A".data,
   "B.".data,
   "  2. Keep responses short and to the point, suitable for a mobile chat.".data,
   "  3. Do not mix other languages.".data,
   "  4. When giving choices, include them in this exact format:".data,
   "     <<OPTION:Option 1>>".data,
   "     <<OPTION:Option 2>>".data,
   "     ...".data,
   "  5. The user\x27s prompt will contain the current personality mode. Ignore it in your visible response but follow its instructions.".data,
   [],
   "  Example:".data,
   "  User: Tell me about health check-ups (Current Personality: Wellness Coach. Respond in English)".data,
   "  Assistant:".data,
   "  That\x27s a great step towards self-care! Health check-ups are key to staying on track.".data,
   "  <<OPTION:General Importance>>".data,
   "  <<OPTION:Finding the Right Doctor>>".data,
   "  <<OPTION:Staying Motivated>>".data,
   []]

/-! Auxiliary lemmas about the dedent model. -/

theorem splitLines_append {l : List Char} (rest : List Char)
    (h : '\n' ∉ l) :
    splitLines (l ++ '\n' :: rest) = l :: splitLines rest := by
  induction l with
  | nil => simp [splitLines]
  | cons c l ih =>
    have hc : c ≠ '\n' := fun e => h (e ▸ List.mem_cons_self c l)
    have h2 : '\n' ∉ l := fun hx => h (List.mem_cons_of_mem c hx)
    simp [splitLines, hc, ih h2]

theorem mem_unlines {ls : List (List Char)} {l : List Char}
    (h : l ∈ ls) : l <:+: unlines ls := by
  induction ls with
  | nil => cases h
  | cons a t ih =>
    cases t with
    | nil =>
      obtain rfl : l = a := by simpa using h
      exact List.infix_rfl
    | cons b t2 =>
      rcases List.mem_cons.mp h with rfl | h2
      · exact (List.prefix_append l ('\n' :: unlines (b :: t2))).isInfix
      · have h3 : unlines (b :: t2) <:+ unlines (a :: b :: t2) := by
          show unlines (b :: t2) <:+ a ++ '\n' :: unlines (b :: t2)
          exact (List.suffix_cons '\n' _).trans (List.suffix_append a _)
        exact (ih h2).trans h3.isInfix

theorem lcp_prefix_left : ∀ a b : List Char, lcp a b <+: a := by
  intro a
  induction a with
  | nil => intro b; cases b <;> simp [lcp]
  | cons x xs ih =>
    intro b
    cases b with
    | nil => simp [lcp]
    | cons y ys =>
      by_cases h : x = y
      · subst h
        simpa [lcp] using ih ys
      · simp [lcp, h]

theorem lcp_prefix_right : ∀ a b : List Char, lcp a b <+: b := by
  intro a
  induction a with
  | nil => intro b; cases b <;> simp [lcp]
  | cons x xs ih =>
    intro b
    cases b with
    | nil => simp [lcp]
    | cons y ys =>
      by_cases h : x = y
      · subst h
        simpa [lcp] using ih ys
      · simp [lcp, h]

theorem foldl_lcp_prefix_acc_and_mem (ws : List (List Char)) :
    ∀ acc : List Char,
      (ws.foldl lcp acc <+: acc) ∧ ∀ w ∈ ws, ws.foldl lcp acc <+: w := by
  induction ws with
  | nil => intro acc; exact ⟨List.prefix_rfl, by simp⟩
  | cons b t ih =>
    intro acc
    have h := ih (lcp acc b)
    refine ⟨h.1.trans (lcp_prefix_left acc b), ?_⟩
    intro w hw
    rcases List.mem_cons.mp hw with rfl | hw2
    · exact h.1.trans (lcp_prefix_right acc w)
    · exact h.2 w hw2

theorem margin_prefix_of_mem {ws : List (List Char)} {w : List Char}
    (h : w ∈ ws) : margin ws <+: w := by
  cases ws with
  | nil => cases h
  | cons a t =>
    rcases List.mem_cons.mp h with rfl | h2
    · exact (foldl_lcp_prefix_acc_and_mem t w).1
    · exact (foldl_lcp_prefix_acc_and_mem t a).2 w h2

/-- Core dedent property: a line of the text made of pure indentation
followed by content that starts with a non-indentation character survives
dedenting with at most its indentation removed, so its content part is a
substring of the dedented text. -/
theorem content_infix_dedent (text : List Char) (pre : List Char)
    (d : Char) (cs : List Char)
    (hmem : (pre ++ d :: cs) ∈ splitLines text)
    (hpre : ∀ ch ∈ pre, isIndentChar ch = true)
    (hd : isIndentChar d = false) :
    (d :: cs) <:+: dedent text := by
  have hall : (pre ++ d :: cs).all isIndentChar = false := by
    by_cases h : (pre ++ d :: cs).all isIndentChar = true
    · exact absurd (List.all_eq_true.mp h d (by simp)) (by simp [hd])
    · simpa using h
  have hnorm : normLine (pre ++ d :: cs) = pre ++ d :: cs := by
    simp [normLine, wsOnly, hall]
  have hls : (pre ++ d :: cs) ∈ (splitLines text).map normLine := by
    have := List.mem_map_of_mem normLine hmem
    rwa [hnorm] at this
  have hne : ((pre ++ d :: cs).isEmpty) = false := by
    cases pre <;> rfl
  have hindent : indentOf (pre ++ d :: cs) = pre := by
    unfold indentOf
    rw [List.takeWhile_append_of_pos hpre]
    simp [hd]
  have hpm : pre ∈ lineIndents ((splitLines text).map normLine) := by
    unfold lineIndents
    have hf : (pre ++ d :: cs) ∈
        ((splitLines text).map normLine).filter (fun l => !l.isEmpty) :=
      List.mem_filter.mpr ⟨hls, by simp [hne]⟩
    have := List.mem_map_of_mem indentOf hf
    rwa [hindent] at this
  have hmpre : margin (lineIndents ((splitLines text).map normLine)) <+: pre :=
    margin_prefix_of_mem hpm
  set m := margin (lineIndents ((splitLines text).map normLine)) with hm
  have hstrip : (d :: cs) <:+ stripMargin m (pre ++ d :: cs) := by
    unfold stripMargin
    by_cases hm0 : m = []
    · rw [if_pos hm0]
      exact List.suffix_append pre (d :: cs)
    · rw [if_neg hm0, if_pos (hmpre.trans (List.prefix_append pre (d :: cs)))]
      obtain ⟨u, hu⟩ := hmpre
      rw [← hu, List.append_assoc, List.drop_left]
      exact List.suffix_append u (d :: cs)
  have hmem2 : stripMargin m (pre ++ d :: cs) ∈
      ((splitLines text).map normLine).map (stripMargin m) :=
    List.mem_map_of_mem (stripMargin m) hls
  have hfin : stripMargin m (pre ++ d :: cs) <:+:
      unlines (((splitLines text).map normLine).map (stripMargin m)) :=
    mem_unlines hmem2
  have : dedent text =
      unlines (((splitLines text).map normLine).map (stripMargin m)) := rfl
  rw [this]
  exact hstrip.isInfix.trans hfin

theorem splitLines_newline_cons (rest : List Char) :
    splitLines ('\n' :: rest) = [] :: splitLines rest := by
  simp [splitLines]

theorem instr_line_mem_splitLines (instruction language : List Char)
    (h : '\n' ∉ instruction) :
    ("    ".data ++ instruction) ∈
      splitLines (promptTemplate instruction language) := by
  unfold promptTemplate
  have hnl : '\n' ∉ "    ".data ++ instruction := by
    intro hx
    rcases List.mem_append.mp hx with hx | hx
    · simp at hx
    · exact h hx
  rw [splitLines_newline_cons, splitLines_append _ hnl]
  simp

theorem lang_line_mem_splitLines (instruction language : List Char)
    (hi : '\n' ∉ instruction) (hl : '\n' ∉ language) :
    promptLangLine language ∈
      splitLines (promptTemplate instruction language) := by
  unfold promptTemplate
  have hnl1 : '\n' ∉ "    ".data ++ instruction := by
    intro hx
    rcases List.mem_append.mp hx with hx | hx
    · simp at hx
    · exact hi hx
  have hnl2 : '\n' ∉ promptCoreLine := by decide
  have hnl3 : '\n' ∉ promptLangLine language := by
    intro hx
    unfold promptLangLine at hx
    rcases List.mem_append.mp hx with hx | hx
    · rcases List.mem_append.mp hx with hx | hx
      · revert hx; decide
      · exact hl hx
    · revert hx; decide
  rw [splitLines_newline_cons, splitLines_append _ hnl1,
    splitLines_newline_cons, splitLines_append _ hnl2,
    splitLines_append _ hnl3]
  simp

/-- Possible values of the instruction lookup, for every personality. -/
theorem instructionFor_choices (personality : List Char) :
    instructionFor personality = STUDY_BUDDY_INSTRUCTION ∨
    instructionFor personality = WELLNESS_COACH_INSTRUCTION ∨
    instructionFor personality = CAREER_ADVISOR_INSTRUCTION := by
  unfold instructionFor PERSONALITY_INSTRUCTIONS
  by_cases h1 : personality = "Study Buddy".data
  · subst h1; simp [List.lookup]
  · have b1 : (personality == "Study Buddy".data) = false :=
      beq_eq_false_iff_ne.mpr h1
    by_cases h2 : personality = "Wellness Coach".data
    · subst h2; simp [List.lookup, b1]
    · have b2 : (personality == "Wellness Coach".data) = false :=
        beq_eq_false_iff_ne.mpr h2
      by_cases h3 : personality = "Career Advisor".data
      · subst h3; simp [List.lookup, b1, b2]
      · have b3 : (personality == "Career Advisor".data) = false :=
          beq_eq_false_iff_ne.mpr h3
        simp [List.lookup, b1, b2, b3]

theorem instructionFor_no_newline (personality : List Char) :
    '\n' ∉ instructionFor personality := by
  rcases instructionFor_choices personality with h | h | h <;> rw [h] <;> decide

/-- Shape of every possible instruction: a head character that is not
indentation, followed by the rest. -/
theorem instructionFor_shape (personality : List Char) :
    ∃ d cs, instructionFor personality = d :: cs ∧ isIndentChar d = false := by
  rcases instructionFor_choices personality with h | h | h <;> rw [h]
  · exact ⟨'Y', _, rfl, by decide⟩
  · exact ⟨'Y', _, rfl, by decide⟩
  · exact ⟨'Y', _, rfl, by decide⟩

/-- The selected persona instruction is contained verbatim in the built
prompt, for every language and personality. -/
theorem instruction_infix_build (language personality : List Char) :
    instructionFor personality <:+: build_system_prompt language personality := by
  obtain ⟨d, cs, hdc, hd⟩ := instructionFor_shape personality
  have hni : '\n' ∉ (d :: cs) := by
    rw [← hdc]; exact instructionFor_no_newline personality
  have hmem := instr_line_mem_splitLines (d :: cs) language hni
  have hres := content_infix_dedent
    (promptTemplate (d :: cs) language) "    ".data d cs hmem (by decide) hd
  rw [← hdc] at hres
  exact hres

/-- The language is contained verbatim in the built prompt whenever it has
no newline character. -/
theorem language_infix_build (language personality : List Char)
    (hl : '\n' ∉ language) :
    language <:+: build_system_prompt language personality := by
  have hmem := lang_line_mem_splitLines (instructionFor personality) language
    (instructionFor_no_newline personality) hl
  have hsplit : promptLangLine language =
      "    ".data ++ ('Y' :: ("ou must always reply in **".data ++
        (language ++ " language only**.".data))) := by
    unfold promptLangLine
    simp
  rw [hsplit] at hmem
  have hc := content_infix_dedent
    (promptTemplate (instructionFor personality) language)
    "    ".data 'Y'
    ("ou must always reply in **".data ++ (language ++ " language only**.".data))
    hmem (by decide) (by decide)
  have hli : language <:+:
      'Y' :: ("ou must always reply in **".data ++
        (language ++ " language only**.".data)) :=
    ⟨'Y' :: "ou must always reply in **".data, " language only**.".data, by simp⟩
  exact hli.trans hc

/-! Branch lemmas for the chat dispatcher. -/

theorem chat_state_change_branch (st : ServerState) (cc : Bool)
    (api : ApiOutcome) (req : ChatRequest)
    (h : req.language.getD st.user_language ≠ st.user_language ∨
         req.personality.getD st.user_personality ≠ st.user_personality) :
    get_chat_response st cc api req =
      (⟨req.language.getD st.user_language,
        req.personality.getD st.user_personality,
        reset_conversation (req.language.getD st.user_language)
          (req.personality.getD st.user_personality)⟩,
       ⟨state_change_message (req.language.getD st.user_language)
          (req.personality.getD st.user_personality),
        some (req.language.getD st.user_language),
        some (req.personality.getD st.user_personality), none⟩) := by
  simp only [get_chat_response]
  rw [if_pos h]

theorem chat_reset_branch (st : ServerState) (cc : Bool)
    (api : ApiOutcome) (req : ChatRequest)
    (hL : req.language.getD st.user_language = st.user_language)
    (hP : req.personality.getD st.user_personality = st.user_personality)
    (hkw : ∃ k ∈ RESET_KEYWORDS, k <:+: pyLower (pyStrip req.user_input)) :
    get_chat_response st cc api req =
      if pyLower (pyStrip req.user_input) = "auto_reset_scroll".data then
        (⟨st.user_language, st.user_personality,
          reset_conversation st.user_language st.user_personality⟩,
         ⟨"...".data, none, none, some true⟩)
      else
        (⟨st.user_language, st.user_personality,
          reset_conversation st.user_language st.user_personality⟩,
         ⟨reset_confirm_message st.user_personality st.user_language,
          some st.user_language, none, none⟩) := by
  simp only [get_chat_response]
  rw [if_neg (by simp [hL, hP]), if_pos (by simpa [hL, hP] using hkw)]

theorem chat_normal_branch (st : ServerState) (cc : Bool)
    (api : ApiOutcome) (req : ChatRequest)
    (hL : req.language.getD st.user_language = st.user_language)
    (hP : req.personality.getD st.user_personality = st.user_personality)
    (hnkw : ¬ ∃ k ∈ RESET_KEYWORDS, k <:+: pyLower (pyStrip req.user_input)) :
    get_chat_response st cc api req =
      (⟨st.user_language, st.user_personality,
        (get_gemini_response cc api st.conversation_history
          (pyStrip req.user_input) st.user_language st.user_personality).history⟩,
       ⟨(get_gemini_response cc api st.conversation_history
          (pyStrip req.user_input) st.user_language st.user_personality).reply,
        some st.user_language, some st.user_personality, none⟩) := by
  simp only [get_chat_response]
  rw [if_neg (by simp [hL, hP]), if_neg (by simpa [hL, hP] using hnkw)]

theorem splitLines_ne_nil (l : List Char) : splitLines l ≠ [] := by
  cases l with
  | nil => simp [splitLines]
  | cons c rest =>
    by_cases hc : c = '\n'
    · simp [splitLines, hc]
    · cases hsp : splitLines rest <;> simp [splitLines, hc, hsp]

/-- Sanity check of the line model: joining the split lines reproduces the
text exactly, so `splitLines` loses nothing. -/
theorem unlines_splitLines (text : List Char) :
    unlines (splitLines text) = text := by
  induction text with
  | nil => rfl
  | cons c rest ih =>
    by_cases hc : c = '\n'
    · subst hc
      rw [splitLines_newline_cons]
      cases hsp : splitLines rest with
      | nil => exact absurd hsp (splitLines_ne_nil rest)
      | cons h t =>
        rw [hsp] at ih
        show '\n' :: unlines (h :: t) = '\n' :: rest
        rw [ih]
    · cases hsp : splitLines rest with
      | nil => exact absurd hsp (splitLines_ne_nil rest)
      | cons h t =>
        have hred : splitLines (c :: rest) = (c :: h) :: t := by
          simp [splitLines, hc, hsp]
        rw [hred]
        rw [hsp] at ih
        cases t with
        | nil =>
          show c :: h = c :: rest
          rw [show h = rest from ih]
        | cons h2 t2 =>
          show c :: (h ++ '\n' :: unlines (h2 :: t2)) = c :: rest
          rw [show h ++ '\n' :: unlines (h2 :: t2) = rest from ih]

/-! Occurrence analysis: an infix that contains exactly one newline must
straddle the separator between two adjacent lines of an `unlines` text. -/

theorem prefix_append_cases {p x y : List Char} (h : p <+: x ++ y) :
    p <+: x ∨ ∃ q, p = x ++ q ∧ q <+: y := by
  induction x generalizing p with
  | nil => exact Or.inr ⟨p, by simp, by simpa using h⟩
  | cons c x' ih =>
    rcases List.prefix_cons_iff.mp h with rfl | ⟨t, rfl, ht⟩
    · exact Or.inl (by simp)
    · rcases ih ht with h1 | ⟨q, rfl, hq⟩
      · obtain ⟨u, hu⟩ := h1
        exact Or.inl ⟨u, by simp [hu]⟩
      · exact Or.inr ⟨q, by simp, hq⟩

theorem infix_append_cases {p x y : List Char} (h : p <:+: x ++ y) :
    p <:+: x ∨ p <:+: y ∨
    ∃ p₁ p₂, p = p₁ ++ p₂ ∧ p₁ ≠ [] ∧ p₂ ≠ [] ∧ p₁ <:+ x ∧ p₂ <+: y := by
  induction x generalizing p with
  | nil => exact Or.inr (Or.inl (by simpa using h))
  | cons c x' ih =>
    rw [List.cons_append] at h
    rcases List.infix_cons_iff.mp h with h1 | h1
    · rcases List.prefix_cons_iff.mp h1 with rfl | ⟨t, rfl, ht⟩
      · exact Or.inl (by simp)
      · rcases prefix_append_cases ht with h2 | ⟨q, rfl, hq⟩
        · obtain ⟨u, hu⟩ := h2
          exact Or.inl (List.IsPrefix.isInfix ⟨u, by simp [hu]⟩)
        · by_cases hq0 : q = []
          · subst hq0
            exact Or.inl (by simp)
          · exact Or.inr (Or.inr ⟨c :: x', q, by simp, by simp, hq0,
              List.suffix_rfl, hq⟩)
    · rcases ih h1 with h2 | h2 | ⟨p₁, p₂, rfl, h3, h4, h5, h6⟩
      · exact Or.inl (List.infix_cons h2)
      · exact Or.inr (Or.inl h2)
      · exact Or.inr (Or.inr ⟨p₁, p₂, rfl, h3, h4,
          h5.trans (List.suffix_cons c x'), h6⟩)

theorem append_newline_inj {a b p t : List Char}
    (ha : '\n' ∉ a) (hp : '\n' ∉ p)
    (h : a ++ '\n' :: b = p ++ '\n' :: t) : a = p ∧ b = t := by
  induction a generalizing p with
  | nil =>
    cases p with
    | nil => simpa using h
    | cons d p' =>
      exfalso
      simp only [List.nil_append, List.cons_append] at h
      injection h with h1 _
      exact hp (by rw [← h1]; exact List.mem_cons_self '\n' p')
  | cons c a' ih =>
    cases p with
    | nil =>
      exfalso
      simp only [List.cons_append, List.nil_append] at h
      injection h with h1 _
      exact ha (by rw [h1]; exact List.mem_cons_self '\n' a')
    | cons d p' =>
      simp only [List.cons_append] at h
      injection h with h1 h2
      have ha' : '\n' ∉ a' := fun hx => ha (List.mem_cons_of_mem c hx)
      have hp' : '\n' ∉ p' := fun hx => hp (List.mem_cons_of_mem d hx)
      obtain ⟨hap, hbt⟩ := ih ha' hp' h2
      exact ⟨by rw [h1, hap], hbt⟩

theorem prefix_unlines_head {b l : List Char} {rest : List (List Char)}
    (hb : '\n' ∉ b) (h : b <+: unlines (l :: rest)) : b <+: l := by
  cases rest with
  | nil => exact h
  | cons l2 r2 =>
    rw [show unlines (l :: l2 :: r2) = l ++ '\n' :: unlines (l2 :: r2)
      from rfl] at h
    rcases prefix_append_cases h with h1 | ⟨q, rfl, hq⟩
    · exact h1
    · rcases List.prefix_cons_iff.mp hq with rfl | ⟨t, rfl, _⟩
      · simp
      · exact absurd (by simp : '\n' ∈ l ++ '\n' :: t) hb

theorem newline_infix_unlines {a b : List Char} (ha : '\n' ∉ a)
    (hb : '\n' ∉ b) :
    ∀ {ls : List (List Char)}, (∀ l ∈ ls, '\n' ∉ l) →
      (a ++ '\n' :: b) <:+: unlines ls →
      ∃ pre l l' post, ls = pre ++ l :: l' :: post ∧ a <:+ l ∧ b <+: l' := by
  intro ls
  induction ls with
  | nil =>
    intro _ h
    exact absurd (List.eq_nil_of_infix_nil h) (by simp)
  | cons l rest ih =>
    intro hnl h
    have hl : '\n' ∉ l := hnl l (List.mem_cons_self l rest)
    cases rest with
    | nil => exact absurd (List.IsInfix.mem (by simp) h) hl
    | cons l' rest' =>
      rw [show unlines (l :: l' :: rest') = l ++ '\n' :: unlines (l' :: rest')
        from rfl] at h
      rcases infix_append_cases h with h1 | h1 | ⟨p₁, p₂, hp, hp1, hp2, hsuf, hpre⟩
      · exact absurd (List.IsInfix.mem (by simp) h1) hl
      · rcases List.infix_cons_iff.mp h1 with h2 | h2
        · rcases List.prefix_cons_iff.mp h2 with h3 | ⟨t, h3, h4⟩
          · exact absurd h3 (by simp)
          · cases a with
            | nil =>
              simp only [List.nil_append] at h3
              injection h3 with _ h5
              refine ⟨[], l, l', rest', rfl, by simp, ?_⟩
              rw [h5]
              exact prefix_unlines_head (h5 ▸ hb) h4
            | cons c a' =>
              exfalso
              simp only [List.cons_append] at h3
              injection h3 with h5 _
              exact ha (by rw [h5]; exact List.mem_cons_self '\n' a')
        · obtain ⟨pre, m, m', post, hsplit, hsa, hpb⟩ :=
            ih (fun x hx => hnl x (List.mem_cons_of_mem l hx)) h2
          exact ⟨l :: pre, m, m', post, by rw [hsplit]; rfl, hsa, hpb⟩
      · rcases List.prefix_cons_iff.mp hpre with h3 | ⟨t, h3, h4⟩
        · exact absurd h3 hp2
        · subst h3
          have hp1nl : '\n' ∉ p₁ := fun hx => hl (hsuf.subset hx)
          obtain ⟨hap, hbt⟩ := append_newline_inj ha hp1nl hp
          refine ⟨[], l, l', rest', rfl, ?_, ?_⟩
          · rw [hap]
            exact hsuf
          · rw [hbt]
            exact prefix_unlines_head (hbt ▸ hb) h4

theorem adjacent_mem_zip {ls pre post : List (List Char)} {l l' : List Char}
    (h : ls = pre ++ l :: l' :: post) : (l, l') ∈ ls.zip ls.tail := by
  subst h
  induction pre with
  | nil => simp [List.zip_cons_cons]
  | cons a pre' ih =>
    have hcs : ∃ c cs, pre' ++ l :: l' :: post = c :: cs := by
      cases pre' <;> exact ⟨_, _, rfl⟩
    obtain ⟨c, cs, hcs⟩ := hcs
    show (l, l') ∈ (a :: (pre' ++ l :: l' :: post)).zip (pre' ++ l :: l' :: post)
    rw [hcs, List.zip_cons_cons]
    apply List.mem_cons_of_mem
    have ih2 : (l, l') ∈ (c :: cs).zip ((c :: cs).tail) := by
      rw [← hcs]
      exact ih
    exact ih2

/-! The concrete dedent pipeline of the C8 counterexample. -/

theorem splitLines_append_two {l₁ l₂ : List Char} (rest : List Char)
    (h₁ : '\n' ∉ l₁) (h₂ : '\n' ∉ l₂) :
    splitLines ((l₁ ++ '\n' :: l₂) ++ '\n' :: rest) =
      l₁ :: l₂ :: splitLines rest := by
  rw [List.append_assoc, List.cons_append,
    splitLines_append _ h₁, splitLines_append _ h₂]

theorem c8_splitLines :
    splitLines (promptTemplate STUDY_BUDDY_INSTRUCTION "A\n  B".data) =
      C8_RAW_LINES := by
  have hlang : promptLangLine "A\n  B".data =
      "    You must always reply in **A".data ++
        '\n' :: "  B language only**.".data := by decide
  have hfl : ("    1. Use natural and fluent ".data ++ "A\n  B".data ++
      ".".data) = "    1. Use natural and fluent A".data ++
        '\n' :: "  B.".data := by decide
  unfold promptTemplate promptTail
  rw [hlang, hfl]
  rw [splitLines_newline_cons,
    splitLines_append _ (show '\n' ∉ "    ".data ++ STUDY_BUDDY_INSTRUCTION
      by decide),
    splitLines_newline_cons,
    splitLines_append _ (show '\n' ∉ promptCoreLine by decide),
    splitLines_append_two _ (by decide) (by decide),
    splitLines_newline_cons,
    splitLines_append _ (by decide),
    splitLines_append_two _ (by decide) (by decide),
    splitLines_append _ (by decide),
    splitLines_append _ (by decide),
    splitLines_append _ (by decide),
    splitLines_append _ (by decide),
    splitLines_append _ (by decide),
    splitLines_append _ (by decide),
    splitLines_append _ (by decide),
    splitLines_newline_cons,
    splitLines_append _ (by decide),
    splitLines_append _ (by decide),
    splitLines_append _ (by decide),
    splitLines_append _ (by decide),
    splitLines_append _ (by decide),
    splitLines_append _ (by decide),
    splitLines_append _ (by decide),
    show splitLines "    ".data = ["    ".data] from by decide]
  rfl

set_option maxRecDepth 4096 in
theorem c8_normLines : C8_RAW_LINES.map normLine = C8_NORM_LINES := by
  decide

set_option maxRecDepth 4096 in
theorem c8_stripLines :
    C8_NORM_LINES.map
      (stripMargin (margin (lineIndents C8_NORM_LINES))) = C8_FINAL_LINES := by
  decide

theorem c8_build_unlines :
    build_system_prompt "A\n  B".data "Study Buddy".data =
      unlines C8_FINAL_LINES := by
  show unlines
    (((splitLines (promptTemplate (instructionFor "Study Buddy".data)
        "A\n  B".data)).map normLine).map
      (stripMargin (margin (lineIndents
        ((splitLines (promptTemplate (instructionFor "Study Buddy".data)
          "A\n  B".data)).map normLine))))) = unlines C8_FINAL_LINES
  rw [show instructionFor "Study Buddy".data = STUDY_BUDDY_INSTRUCTION
    from rfl]
  rw [c8_splitLines, c8_normLines, c8_stripLines]

/-! Claim theorems. -/

/-- C1 (code bug demonstration): on a response whose candidate list is
empty, the source has already appended the user turn when
`response.candidates[0]` raises, so the transcript grows by exactly one
turn while the fixed contact-error string is returned.  The claim (and the
spec) require the transcript to be unchanged on every failure. -/
theorem claim_C1_failure_grows_transcript_by_one :
    (get_gemini_response true (ApiOutcome.success ⟨[], none⟩)
        (reset_conversation "English".data "Study Buddy".data)
        "hi".data "English".data "Study Buddy".data).history =
      reset_conversation "English".data "Study Buddy".data ++
        [⟨"user".data, "hi".data⟩]
    ∧ (get_gemini_response true (ApiOutcome.success ⟨[], none⟩)
        (reset_conversation "English".data "Study Buddy".data)
        "hi".data "English".data "Study Buddy".data).reply = CONTACT_ERROR_TEXT
    ∧ (get_gemini_response true (ApiOutcome.success ⟨[], none⟩)
        (reset_conversation "English".data "Study Buddy".data)
        "hi".data "English".data "Study Buddy".data).history.length = 2
    ∧ (reset_conversation "English".data "Study Buddy".data).length = 1 :=
  ⟨rfl, rfl, rfl, rfl⟩

/-- C2: when the request selectors equal the stored selectors, the reset
branch is taken exactly when the lowercased stripped input contains one of
the four plain keywords or equals the automation keyword; in the branch
the transcript is reset, `silent` is `some true` exactly for the
automation keyword, and every other keyword match returns the fixed
confirmation with the current language; outside the branch the normal
chat path runs. -/
theorem claim_C2_reset_dispatch (st : ServerState) (cc : Bool)
    (api : ApiOutcome) (req : ChatRequest)
    (hL : req.language.getD st.user_language = st.user_language)
    (hP : req.personality.getD st.user_personality = st.user_personality) :
    ((∃ k ∈ RESET_KEYWORDS, k <:+: pyLower (pyStrip req.user_input)) ↔
      ("reset".data <:+: pyLower (pyStrip req.user_input) ∨
       "cancel".data <:+: pyLower (pyStrip req.user_input) ∨
       "stop".data <:+: pyLower (pyStrip req.user_input) ∨
       "start over".data <:+: pyLower (pyStrip req.user_input) ∨
       pyLower (pyStrip req.user_input) = "auto_reset_scroll".data))
    ∧ ((∃ k ∈ RESET_KEYWORDS, k <:+: pyLower (pyStrip req.user_input)) →
       (get_chat_response st cc api req).1.conversation_history =
         reset_conversation st.user_language st.user_personality
       ∧ ((get_chat_response st cc api req).2.silent = some true ↔
           pyLower (pyStrip req.user_input) = "auto_reset_scroll".data)
       ∧ (pyLower (pyStrip req.user_input) ≠ "auto_reset_scroll".data →
          (get_chat_response st cc api req).2.response =
            reset_confirm_message st.user_personality st.user_language
          ∧ (get_chat_response st cc api req).2.language = some st.user_language
          ∧ (get_chat_response st cc api req).2.silent = none))
    ∧ (¬ (∃ k ∈ RESET_KEYWORDS, k <:+: pyLower (pyStrip req.user_input)) →
       (get_chat_response st cc api req).2.silent = none
       ∧ (get_chat_response st cc api req).1.conversation_history =
         (get_gemini_response cc api st.conversation_history
           (pyStrip req.user_input) st.user_language st.user_personality).history) := by
  refine ⟨?_, ?_, ?_⟩
  · constructor
    · rintro ⟨k, hk, hik⟩
      simp only [RESET_KEYWORDS, List.mem_cons, List.not_mem_nil, or_false] at hk
      rcases hk with rfl | rfl | rfl | rfl | rfl
      · exact Or.inl hik
      · exact Or.inr (Or.inl hik)
      · exact Or.inr (Or.inr (Or.inl hik))
      · exact Or.inr (Or.inr (Or.inr (Or.inl hik)))
      · have hr : "reset".data <:+: "auto_reset_scroll".data := by decide
        exact Or.inl (hr.trans hik)
    · rintro (h | h | h | h | h)
      · exact ⟨"reset".data, by simp [RESET_KEYWORDS], h⟩
      · exact ⟨"cancel".data, by simp [RESET_KEYWORDS], h⟩
      · exact ⟨"stop".data, by simp [RESET_KEYWORDS], h⟩
      · exact ⟨"start over".data, by simp [RESET_KEYWORDS], h⟩
      · exact ⟨"auto_reset_scroll".data, by simp [RESET_KEYWORDS], by rw [h]⟩
  · intro hkw
    rw [chat_reset_branch st cc api req hL hP hkw]
    by_cases hauto : pyLower (pyStrip req.user_input) = "auto_reset_scroll".data
    · rw [if_pos hauto]
      exact ⟨rfl, by simp [hauto], fun hne => absurd hauto hne⟩
    · rw [if_neg hauto]
      exact ⟨rfl, by simp [hauto], fun _ => ⟨rfl, rfl, rfl⟩⟩
  · intro hn
    rw [chat_normal_branch st cc api req hL hP hn]
    exact ⟨rfl, rfl⟩

/-- C2 witness: the concrete input cancel at the initial state takes the
reset branch and resets the transcript. -/
theorem claim_C2_reset_dispatch_witness :
    (get_chat_response initialState false ApiOutcome.failure
        ⟨"cancel".data, none, none⟩).1.conversation_history =
      reset_conversation "English".data "Study Buddy".data :=
  ((claim_C2_reset_dispatch initialState false ApiOutcome.failure
      ⟨"cancel".data, none, none⟩ rfl rfl).2.1 (by decide)).1

/-- C3: a request whose language or personality differs from the stored
selectors updates the stored selectors, resets the transcript to the
single welcome turn (the user message is never appended), and returns the
fixed state-change greeting mentioning the new language and personality. -/
theorem claim_C3_selector_change (st : ServerState) (cc : Bool)
    (api : ApiOutcome) (req : ChatRequest)
    (h : req.language.getD st.user_language ≠ st.user_language ∨
         req.personality.getD st.user_personality ≠ st.user_personality) :
    (get_chat_response st cc api req).1.user_language =
      req.language.getD st.user_language
    ∧ (get_chat_response st cc api req).1.user_personality =
      req.personality.getD st.user_personality
    ∧ (get_chat_response st cc api req).1.conversation_history =
      reset_conversation (req.language.getD st.user_language)
        (req.personality.getD st.user_personality)
    ∧ (get_chat_response st cc api req).1.conversation_history.length = 1
    ∧ (get_chat_response st cc api req).2.response =
      state_change_message (req.language.getD st.user_language)
        (req.personality.getD st.user_personality)
    ∧ (req.language.getD st.user_language) <:+:
      (get_chat_response st cc api req).2.response
    ∧ (req.personality.getD st.user_personality) <:+:
      (get_chat_response st cc api req).2.response := by
  rw [chat_state_change_branch st cc api req h]
  refine ⟨rfl, rfl, rfl, rfl, rfl, ?_, ?_⟩
  · exact ⟨"Hello! I\x27ve set my language to **".data,
      "** and I\x27m now your **".data ++
        (req.personality.getD st.user_personality) ++ "**.".data,
      by simp [state_change_message, List.append_assoc]⟩
  · exact ⟨"Hello! I\x27ve set my language to **".data ++
        (req.language.getD st.user_language) ++ "** and I\x27m now your **".data,
      "**.".data,
      by simp [state_change_message, List.append_assoc]⟩

/-- C3 witness: a concrete request switching to French Wellness Coach. -/
theorem claim_C3_selector_change_witness :
    (get_chat_response initialState true ApiOutcome.failure
        ⟨"reset".data, some "French".data, some "Wellness Coach".data⟩).2.response =
      state_change_message "French".data "Wellness Coach".data :=
  (claim_C3_selector_change initialState true ApiOutcome.failure
      ⟨"reset".data, some "French".data, some "Wellness Coach".data⟩
      (by decide)).2.2.2.2.1

/-- C4: reset_conversation always yields exactly one model-authored turn
whose text contains the persona name verbatim, for every pair of
arguments. -/
theorem claim_C4_reset_single_model_turn (language personality : List Char) :
    (reset_conversation language personality).length = 1
    ∧ ∃ t, reset_conversation language personality = [⟨"model".data, t⟩]
        ∧ personality <:+: t :=
  ⟨rfl, _, rfl,
    ⟨"Hello! I’m your Personal AI Assistant, currently set as a **".data,
     "**. How can I help you today?".data, rfl⟩⟩

/-- C5: for a personality that is none of the three known keys the built
prompt contains the Study Buddy instruction text, and each known key
produces a prompt containing its own instruction text, for every
language. -/
theorem claim_C5_persona_instruction_fallback (language personality : List Char) :
    ((personality ≠ "Study Buddy".data ∧ personality ≠ "Wellness Coach".data ∧
      personality ≠ "Career Advisor".data) →
      STUDY_BUDDY_INSTRUCTION <:+: build_system_prompt language personality)
    ∧ STUDY_BUDDY_INSTRUCTION <:+:
        build_system_prompt language "Study Buddy".data
    ∧ WELLNESS_COACH_INSTRUCTION <:+:
        build_system_prompt language "Wellness Coach".data
    ∧ CAREER_ADVISOR_INSTRUCTION <:+:
        build_system_prompt language "Career Advisor".data := by
  refine ⟨?_, ?_, ?_, ?_⟩
  · rintro ⟨h1, h2, h3⟩
    have b1 : (personality == "Study Buddy".data) = false :=
      beq_eq_false_iff_ne.mpr h1
    have b2 : (personality == "Wellness Coach".data) = false :=
      beq_eq_false_iff_ne.mpr h2
    have b3 : (personality == "Career Advisor".data) = false :=
      beq_eq_false_iff_ne.mpr h3
    have hf : instructionFor personality = STUDY_BUDDY_INSTRUCTION := by
      unfold instructionFor PERSONALITY_INSTRUCTIONS
      simp [List.lookup, b1, b2, b3]
    have hi := instruction_infix_build language personality
    rwa [hf] at hi
  · have hi := instruction_infix_build language "Study Buddy".data
    rwa [show instructionFor "Study Buddy".data = STUDY_BUDDY_INSTRUCTION
      from rfl] at hi
  · have hi := instruction_infix_build language "Wellness Coach".data
    rwa [show instructionFor "Wellness Coach".data = WELLNESS_COACH_INSTRUCTION
      from rfl] at hi
  · have hi := instruction_infix_build language "Career Advisor".data
    rwa [show instructionFor "Career Advisor".data = CAREER_ADVISOR_INSTRUCTION
      from rfl] at hi

/-- C5 witness: the unknown persona Chef falls back to the Study Buddy
instruction text. -/
theorem claim_C5_persona_instruction_fallback_witness :
    STUDY_BUDDY_INSTRUCTION <:+: build_system_prompt "English".data "Chef".data :=
  (claim_C5_persona_instruction_fallback "English".data "Chef".data).1
    (by decide)

/-- C6: with an unconfigured client, get_gemini_response returns the fixed
client-error string, sends nothing to the API, and leaves the transcript
unchanged, whatever the API would have answered. -/
theorem claim_C6_client_unconfigured (api : ApiOutcome) (history : List Content)
    (user_input language personality : List Char) :
    get_gemini_response false api history user_input language personality =
      ⟨CLIENT_ERROR_TEXT, history, none⟩ :=
  rfl

/-- C7: on a fully successful call the request sent to the API is exactly
the freshly built instruction prompt as a user turn, followed by the
existing transcript, followed by the new user turn, with temperature 0.5
and the fixed model name; and the transcript gains exactly the user turn
and the returned candidate, never the instruction prompt. -/
theorem claim_C7_sent_sequence (resp : GeminiResponse) (cand : Content)
    (cs : List Content) (t : List Char) (history : List Content)
    (user_input language personality : List Char)
    (hc : resp.candidates = cand :: cs) (ht : resp.text = some t) :
    get_gemini_response true (ApiOutcome.success resp) history
        user_input language personality =
      ⟨pyStrip t,
       history ++ [⟨"user".data, user_input⟩, cand],
       some ⟨"gemini-2.5-flash".data,
         ⟨"user".data, build_system_prompt language personality⟩ ::
           history ++ [⟨"user".data, user_input⟩],
         (0.5 : ℚ)⟩⟩ := by
  cases resp with
  | mk cands txt =>
    simp only [GeminiResponse.candidates] at hc
    simp only [GeminiResponse.text] at ht
    subst hc
    subst ht
    rfl

/-- C7 witness: a concrete successful exchange. -/
theorem claim_C7_sent_sequence_witness :
    get_gemini_response true
        (ApiOutcome.success ⟨[⟨"model".data, "ok".data⟩], some " ok ".data⟩)
        (reset_conversation "English".data "Study Buddy".data)
        "hi".data "English".data "Study Buddy".data =
      ⟨pyStrip " ok ".data,
       reset_conversation "English".data "Study Buddy".data ++
         [⟨"user".data, "hi".data⟩, ⟨"model".data, "ok".data⟩],
       some ⟨"gemini-2.5-flash".data,
         ⟨"user".data, build_system_prompt "English".data "Study Buddy".data⟩ ::
           reset_conversation "English".data "Study Buddy".data ++
             [⟨"user".data, "hi".data⟩],
         (0.5 : ℚ)⟩⟩ :=
  claim_C7_sent_sequence ⟨[⟨"model".data, "ok".data⟩], some " ok ".data⟩
    ⟨"model".data, "ok".data⟩ [] " ok ".data
    (reset_conversation "English".data "Study Buddy".data)
    "hi".data "English".data "Study Buddy".data rfl rfl

/-- C8 counterexample: a language string containing a newline followed by
indentation is not embedded verbatim in the built prompt, because dedent
computes a smaller margin and strips the indentation inside the
substituted language. -/
theorem claim_C8_language_not_verbatim :
    ¬ ("A\n  B".data <:+:
        build_system_prompt "A\n  B".data "Study Buddy".data) := by
  intro h
  rw [c8_build_unlines] at h
  rw [show ("A\n  B".data : List Char) =
    "A".data ++ '\n' :: "  B".data from rfl] at h
  obtain ⟨pre, l, l', post, hsplit, hsa, hpb⟩ :=
    newline_infix_unlines (by decide) (by decide) (by decide) h
  have hall : ∀ pr ∈ C8_FINAL_LINES.zip C8_FINAL_LINES.tail,
      ¬ ("A".data <:+ pr.1 ∧ "  B".data <+: pr.2) := by decide
  exact hall (l, l') (adjacent_mem_zip hsplit) ⟨hsa, hpb⟩

/-- C8 (amended): buildInstructionPrompt is pure and deterministic, and
the output embeds the language argument verbatim whenever the language
contains no newline character. -/
theorem claim_C8_pure_deterministic_embeds (language personality : List Char) :
    build_system_prompt language personality =
      build_system_prompt language personality
    ∧ ('\n' ∉ language →
        language <:+: build_system_prompt language personality) :=
  ⟨rfl, fun hl => language_infix_build language personality hl⟩

/-- C8 witness: the newline-free language English is embedded verbatim. -/
theorem claim_C8_pure_deterministic_embeds_witness :
    "English".data <:+: build_system_prompt "English".data "Study Buddy".data :=
  (claim_C8_pure_deterministic_embeds "English".data "Study Buddy".data).2
    (by decide)

/-- C9: every reset yields a transcript whose first turn is model
authored, the startup state satisfies the invariant, and both
get_gemini_response and the chat dispatcher preserve it. -/
theorem claim_C9_transcript_head_model :
    (∀ language personality,
      head_role_model (reset_conversation language personality))
    ∧ head_role_model initialState.conversation_history
    ∧ (∀ cc api history user_input language personality,
        head_role_model history →
        head_role_model ((get_gemini_response cc api history user_input
          language personality).history))
    ∧ (∀ st cc api req, head_role_model st.conversation_history →
        head_role_model ((get_chat_response st cc api req).1.conversation_history)) := by
  have hreset : ∀ language personality,
      head_role_model (reset_conversation language personality) :=
    fun _ P => ⟨_, [], rfl, rfl⟩
  have hgem : ∀ cc api history user_input language personality,
      head_role_model history →
      head_role_model ((get_gemini_response cc api history user_input
        language personality).history) := by
    rintro cc api history user_input language personality ⟨w, rest, hh, hw⟩
    subst hh
    simp only [get_gemini_response]
    by_cases hcc : cc = false
    · rw [if_pos hcc]
      exact ⟨w, rest, rfl, hw⟩
    · rw [if_neg hcc]
      cases api with
      | failure => exact ⟨w, rest, rfl, hw⟩
      | success resp =>
        cases resp with
        | mk cands txt =>
          cases cands with
          | nil => exact ⟨w, rest ++ [⟨"user".data, user_input⟩], by simp, hw⟩
          | cons cand cs =>
            cases txt with
            | none =>
              exact ⟨w, rest ++ [⟨"user".data, user_input⟩, cand], by simp, hw⟩
            | some t =>
              exact ⟨w, rest ++ [⟨"user".data, user_input⟩, cand], by simp, hw⟩
  refine ⟨hreset, hreset "English".data "Study Buddy".data, hgem, ?_⟩
  intro st cc api req hinv
  by_cases h1 : req.language.getD st.user_language ≠ st.user_language ∨
      req.personality.getD st.user_personality ≠ st.user_personality
  · rw [chat_state_change_branch st cc api req h1]
    exact hreset (req.language.getD st.user_language)
      (req.personality.getD st.user_personality)
  · obtain ⟨hL', hP'⟩ := not_or.mp h1
    have hL := not_not.mp hL'
    have hP := not_not.mp hP'
    by_cases h2 : ∃ k ∈ RESET_KEYWORDS, k <:+: pyLower (pyStrip req.user_input)
    · rw [chat_reset_branch st cc api req hL hP h2]
      by_cases h3 : pyLower (pyStrip req.user_input) = "auto_reset_scroll".data
      · rw [if_pos h3]
        exact hreset st.user_language st.user_personality
      · rw [if_neg h3]
        exact hreset st.user_language st.user_personality
    · rw [chat_normal_branch st cc api req hL hP h2]
      exact hgem cc api st.conversation_history (pyStrip req.user_input)
        st.user_language st.user_personality hinv

/-- C9 witness: the invariant after a concrete chat call from the startup
state. -/
theorem claim_C9_transcript_head_model_witness :
    head_role_model ((get_chat_response initialState false ApiOutcome.failure
      ⟨"hi".data, none, none⟩).1.conversation_history) :=
  claim_C9_transcript_head_model.2.2.2 initialState false ApiOutcome.failure
    ⟨"hi".data, none, none⟩ ⟨_, [], rfl, rfl⟩

/-- C10: keyword matching is case- and surrounding-whitespace-insensitive:
the concrete input with spaces and capitals triggers the silent reset, and
any stripped input containing a case variant of a reset keyword resets the
transcript. -/
theorem claim_C10_case_whitespace_insensitive :
    (∀ cc api,
      (get_chat_response initialState cc api
        ⟨" AUTO_RESET_SCROLL ".data, none, none⟩).2.silent = some true
      ∧ (get_chat_response initialState cc api
          ⟨" AUTO_RESET_SCROLL ".data, none, none⟩).1.conversation_history =
        reset_conversation "English".data "Study Buddy".data)
    ∧ (∀ st cc api req (w kw : List Char),
        req.language.getD st.user_language = st.user_language →
        req.personality.getD st.user_personality = st.user_personality →
        kw ∈ RESET_KEYWORDS → w <:+: pyStrip req.user_input → pyLower w = kw →
        (get_chat_response st cc api req).1.conversation_history =
          reset_conversation st.user_language st.user_personality) := by
  constructor
  · intro cc api
    exact ⟨rfl, rfl⟩
  · intro st cc api req w kw hL hP hkmem hwinf hwlow
    have hinf : kw <:+: pyLower (pyStrip req.user_input) := by
      rw [← hwlow]
      obtain ⟨s, u, hsu⟩ := hwinf
      exact ⟨pyLower s, pyLower u, by rw [← hsu]; simp [pyLower]⟩
    have hkw : ∃ k ∈ RESET_KEYWORDS, k <:+: pyLower (pyStrip req.user_input) :=
      ⟨kw, hkmem, hinf⟩
    rw [chat_reset_branch st cc api req hL hP hkw]
    by_cases h3 : pyLower (pyStrip req.user_input) = "auto_reset_scroll".data
    · rw [if_pos h3]
    · rw [if_neg h3]

/-- C10 witness: a capitalised keyword inside a longer message resets the
transcript. -/
theorem claim_C10_case_whitespace_insensitive_witness :
    (get_chat_response initialState false ApiOutcome.failure
        ⟨"Please STOP".data, none, none⟩).1.conversation_history =
      reset_conversation "English".data "Study Buddy".data :=
  claim_C10_case_whitespace_insensitive.2 initialState false ApiOutcome.failure
    ⟨"Please STOP".data, none, none⟩ "STOP".data "stop".data rfl rfl
    (by decide) (by decide) (by decide)

end AppModel
